import Mathlib

/-!
Verification of the naming-string generation core of the mkt-team autonamer
(src/components/CopyRow.tsx, second module, plus src/types.ts).

Strings are modelled as lists of characters.  JavaScript string operations
used by the source are embedded explicitly:
  - String.prototype.trim removes the ECMAScript WhiteSpace and
    LineTerminator characters from both ends;
  - s.replace(CLEAN_RE, '') with CLEAN_RE = /[ ​‍⁠]/g
    is a filter;
  - s.replace(/,\s/g, '-') is a left-to-right non-overlapping scan;
  - s.replace(/ /g, '') and s.replace(/,/g, '-') are filter and map;
  - Array.prototype.filter / map / join are the list operations.
-/

abbrev Str := List Char

/-- The set matched by the ECMAScript regex class backslash-s and trimmed by
String.prototype.trim: WhiteSpace (tab, VT, FF, space, NBSP, BOM, Zs
category) plus LineTerminator (LF, CR, LS, PS). -/
def isJsWhitespace (c : Char) : Bool :=
  c.toNat == 0x09 || c.toNat == 0x0A || c.toNat == 0x0B || c.toNat == 0x0C ||
  c.toNat == 0x0D || c.toNat == 0x20 || c.toNat == 0xA0 || c.toNat == 0x1680 ||
  (decide (0x2000 ≤ c.toNat) && decide (c.toNat ≤ 0x200A)) ||
  c.toNat == 0x2028 || c.toNat == 0x2029 || c.toNat == 0x202F ||
  c.toNat == 0x205F || c.toNat == 0x3000 || c.toNat == 0xFEFF

/-- The characters removed by CLEAN_RE = /[ ​‍⁠]/g :
non-breaking space, zero-width space, zero-width joiner, word joiner. -/
def isCleanTarget (c : Char) : Bool :=
  c.toNat == 0xA0 || c.toNat == 0x200B || c.toNat == 0x200D || c.toNat == 0x2060

/-- JavaScript String.prototype.trim: drop leading and trailing
whitespace/line-terminator characters. -/
def jsTrim (l : Str) : Str :=
  ((l.dropWhile isJsWhitespace).reverse.dropWhile isJsWhitespace).reverse

/-- A JavaScript value passed where the source declares an unknown:
either a string or some non-string value (undefined, number, ...). -/
inductive JSVal where
  | str (s : Str)
  | nonString
deriving DecidableEq

/-- Embedding of the string branch of the source function clean:
s.replace(CLEAN_RE, '').trim() . -/
def cleanStr (s : Str) : Str :=
  jsTrim (s.filter (fun c => !isCleanTarget c))

/-- Source: const clean = (s: unknown): string =>
typeof s !== 'string' ? '' : s.replace(CLEAN_RE, '').trim() . -/
def clean : JSVal → Str
  | .str s => cleanStr s
  | .nonString => []

/-- JavaScript Array.prototype.join with a string delimiter. -/
def joinParts (delimiter : Str) : List Str → Str
  | [] => []
  | [p] => p
  | p :: ps => p ++ delimiter ++ joinParts delimiter ps

/-- Source: textJoin maps every part through clean, drops empties, joins. -/
def textJoin (delimiter : Str) (parts : List Str) : Str :=
  joinParts delimiter ((parts.map cleanStr).filter (fun p => !p.isEmpty))

/-- Source: s.replace(/,\s/g, '-') — global, left-to-right, non-overlapping. -/
def substituteCommaSpaceToDash : Str → Str
  | [] => []
  | [c] => [c]
  | c1 :: c2 :: rest =>
    if c1 == ',' && isJsWhitespace c2 then
      '-' :: substituteCommaSpaceToDash rest
    else
      c1 :: substituteCommaSpaceToDash (c2 :: rest)

/-- Source: const removeNormalSpaces = (s) => s.replace(/ /g, '') . -/
def removeNormalSpaces (s : Str) : Str :=
  s.filter (fun c => !(c == ' '))

/-- Source: const replaceCommasWithDash = (s) => s.replace(/,/g, '-') . -/
def replaceCommasWithDash (s : Str) : Str :=
  s.map (fun c => if c == ',' then '-' else c)

/-- Source: const cleanAdSetVideo = (s) => removeNormalSpaces(clean(s)) . -/
def cleanAdSetVideo (s : Str) : Str :=
  removeNormalSpaces (cleanStr s)

/-- Source: const cleanAdSetStatic = (s) =>
removeNormalSpaces(replaceCommasWithDash(clean(s))) . -/
def cleanAdSetStatic (s : Str) : Str :=
  removeNormalSpaces (replaceCommasWithDash (cleanStr s))

/-- Source: textJoinWith maps parts through a given cleaner, drops empties,
joins with the delimiter. -/
def textJoinWith (delimiter : Str) (parts : List Str) (cleaner : Str → Str) : Str :=
  joinParts delimiter ((parts.map cleaner).filter (fun p => !p.isEmpty))

/-- src/types.ts FormData: one creative asset's metadata record. -/
structure FormData where
  account : Str
  productGeo : Str
  trial : Str
  conceptId : Str
  assetId : Str
  focus : Str
  theme : Str
  shortConceptDesc : Str
  testVariable : Str
  testDesc : Str
  age : Str
  ethnicity : Str
  ratio : Str
  style : Str
  graphic : Str
  sound : Str
  productCode : Str
  projectCode : Str
  ncon : Bool
  variant : Str
  adTextCode : Str
  seq : Str
  title : Str
  intro : Str
  seqDesc : Str
  hookTheme : Str
  hookDesc : Str
  visualTheme : Str
  visualObject : Str
  carouselCode : Str
  carouselDesc : Str
  titleDesc : Str
  visualIdentifier : Str

/-- src/types.ts GeneratedOutputs. -/
structure GeneratedOutputs where
  adSet : Str
  adLevel : Str

/-- Source: const nconStr = data.ncon ? 'NCON' : '' . -/
def nconToken (data : FormData) : Str :=
  if data.ncon then "NCON".data else []

/-- Source: data.variant ? clean(projectCode) + clean(variant)
: clean(projectCode) (same expression in both generators). -/
def projectCodeVariant (data : FormData) : Str :=
  if data.variant = [] then cleanStr data.projectCode
  else cleanStr data.projectCode ++ cleanStr data.variant

/-- Video ad-set string: textJoinWith('_', [21 fields], cleanAdSetVideo). -/
def videoAdSet (data : FormData) : Str :=
  textJoinWith ['_'] [
    data.account,
    data.productGeo,
    data.trial,
    data.conceptId,
    data.assetId,
    data.focus,
    data.theme,
    data.shortConceptDesc,
    data.seq,
    data.title,
    data.intro,
    data.testVariable,
    data.testDesc,
    nconToken data,
    data.age,
    data.ethnicity,
    data.ratio,
    data.style,
    data.graphic,
    data.productCode,
    data.projectCode
  ] cleanAdSetVideo

/-- Video S-part: clean(seqDesc) ? 'S-' + clean(seqDesc) : '' . -/
def videoSPart (data : FormData) : Str :=
  if cleanStr data.seqDesc = [] then [] else "S-".data ++ cleanStr data.seqDesc

/-- Video T-part: textJoin('-', [clean(hookTheme) ? 'T-'+clean(hookTheme) : '',
hookDesc]). -/
def videoTPart (data : FormData) : Str :=
  textJoin ['-'] [
    (if cleanStr data.hookTheme = [] then [] else "T-".data ++ cleanStr data.hookTheme),
    data.hookDesc
  ]

/-- Video V-part: textJoin('-', [clean(visualTheme) ? 'V-'+clean(visualTheme)
: '', visualObject]). -/
def videoVPart (data : FormData) : Str :=
  textJoin ['-'] [
    (if cleanStr data.visualTheme = [] then [] else "V-".data ++ cleanStr data.visualTheme),
    data.visualObject
  ]

/-- Video A-part: clean(sound) ? 'A-' + clean(sound) : '' . -/
def videoAPart (data : FormData) : Str :=
  if cleanStr data.sound = [] then [] else "A-".data ++ cleanStr data.sound

/-- Video ad-level string before the final substitution pass. -/
def videoAdLevelRaw (data : FormData) : Str :=
  textJoin ['_'] [
    data.account,
    data.productGeo,
    data.trial,
    data.conceptId,
    data.assetId,
    data.focus,
    data.theme,
    data.shortConceptDesc,
    data.seq,
    data.title,
    data.intro,
    videoSPart data,
    videoTPart data,
    videoVPart data,
    videoAPart data,
    nconToken data,
    data.age,
    data.ethnicity,
    data.ratio,
    data.style,
    data.graphic,
    data.productCode,
    projectCodeVariant data,
    data.adTextCode
  ]

/-- Source: export const generateVideoOutputs. -/
def generateVideoOutputs (data : FormData) : GeneratedOutputs :=
  { adSet := videoAdSet data
    adLevel := substituteCommaSpaceToDash (videoAdLevelRaw data) }

/-- Static ad-set string: 26 slots mirroring spreadsheet columns A..Z, with
empty literals at N..Q and Z. -/
def staticAdSet (data : FormData) : Str :=
  textJoinWith ['_'] [
    data.account,
    data.productGeo,
    data.trial,
    data.conceptId,
    data.assetId,
    data.focus,
    data.theme,
    data.shortConceptDesc,
    data.carouselCode,
    data.title,
    data.intro,
    data.testVariable,
    data.testDesc,
    [], [], [], [],
    nconToken data,
    data.age,
    data.ethnicity,
    data.ratio,
    data.style,
    data.graphic,
    data.productCode,
    data.projectCode,
    []
  ] cleanAdSetStatic

/-- Static S-part: clean(carouselDesc) ? 'S-' + clean(carouselDesc) : '' . -/
def staticSPart (data : FormData) : Str :=
  if cleanStr data.carouselDesc = [] then [] else "S-".data ++ cleanStr data.carouselDesc

/-- Static T-part: textJoin('-', [clean(hookTheme) ? 'T-'+clean(hookTheme)
: '', titleDesc]). -/
def staticTPart (data : FormData) : Str :=
  textJoin ['-'] [
    (if cleanStr data.hookTheme = [] then [] else "T-".data ++ cleanStr data.hookTheme),
    data.titleDesc
  ]

/-- Static V-part: textJoin('-', [clean(visualTheme) ? 'V-'+clean(visualTheme)
: '', visualObject]). -/
def staticVPart (data : FormData) : Str :=
  textJoin ['-'] [
    (if cleanStr data.visualTheme = [] then [] else "V-".data ++ cleanStr data.visualTheme),
    data.visualObject
  ]

/-- Static A-part: clean(visualIdentifier) ? 'A-' + clean(visualIdentifier)
: '' . -/
def staticAPart (data : FormData) : Str :=
  if cleanStr data.visualIdentifier = [] then []
  else "A-".data ++ cleanStr data.visualIdentifier

/-- Static ad-level string before the final substitution pass. -/
def staticAdLevelRaw (data : FormData) : Str :=
  textJoin ['_'] [
    data.account,
    data.productGeo,
    data.trial,
    data.conceptId,
    data.assetId,
    data.focus,
    data.theme,
    data.shortConceptDesc,
    data.carouselCode,
    data.title,
    data.intro,
    staticSPart data,
    staticTPart data,
    staticVPart data,
    staticAPart data,
    nconToken data,
    data.age,
    data.ethnicity,
    data.ratio,
    data.style,
    data.graphic,
    data.productCode,
    projectCodeVariant data,
    data.adTextCode
  ]

/-- Source: export const generateStaticOutputs. -/
def generateStaticOutputs (data : FormData) : GeneratedOutputs :=
  { adSet := staticAdSet data
    adLevel := substituteCommaSpaceToDash (staticAdLevelRaw data) }

/-- A record with every string field empty and the flag off. -/
def emptyRecord : FormData where
  account := []
  productGeo := []
  trial := []
  conceptId := []
  assetId := []
  focus := []
  theme := []
  shortConceptDesc := []
  testVariable := []
  testDesc := []
  age := []
  ethnicity := []
  ratio := []
  style := []
  graphic := []
  sound := []
  productCode := []
  projectCode := []
  ncon := false
  variant := []
  adTextCode := []
  seq := []
  title := []
  intro := []
  seqDesc := []
  hookTheme := []
  hookDesc := []
  visualTheme := []
  visualObject := []
  carouselCode := []
  carouselDesc := []
  titleDesc := []
  visualIdentifier := []

/-- The record of the C2 scenario: account, geo and trial set, all other
fields empty, flag off. -/
def c2Record : FormData :=
  { emptyRecord with
    account := "US".data, productGeo := "USA".data, trial := "T1".data }

/-- The record of the C3 scenario: hook theme and description set, a visual
object with no visual theme, no sound. -/
def c3Record : FormData :=
  { emptyRecord with
    hookTheme := "Fear".data, hookDesc := "Urgency".data,
    visualObject := "ProductShot".data }

/-- A record whose ad-text code contains a comma immediately followed by a
tab character. -/
def commaTabRecord : FormData :=
  { emptyRecord with adTextCode := "x,\ty".data }

/-- Spec-side description of a tag-prefixed segment: the dash-delimited
skip-blank join of tag ++ primary (present only when the normalized primary
is non-empty) with the normalized secondary; empty when both are absent.
Inputs are the already-normalized primary and secondary values. -/
def segJoin (tag t d : Str) : Str :=
  if t = [] then d
  else if d = [] then tag ++ t
  else tag ++ t ++ ['-'] ++ d

/-- Modelled from the claim as stated: replace every occurrence of the
literal two-character sequence comma followed by U+0020 with a dash, leaving
every other character sequence unaltered. -/
def substCommaSpaceOnly : Str → Str
  | [] => []
  | [c] => [c]
  | c1 :: c2 :: rest =>
    if c1 == ',' && c2 == ' ' then
      '-' :: substCommaSpaceOnly rest
    else
      c1 :: substCommaSpaceOnly (c2 :: rest)

/-- The code points of the ECMAScript WhiteSpace and LineTerminator sets,
listed explicitly (the class matched by backslash-s). -/
def specWsCodes : List Nat :=
  [0x09, 0x0A, 0x0B, 0x0C, 0x0D, 0x20, 0xA0, 0x1680,
   0x2000, 0x2001, 0x2002, 0x2003, 0x2004, 0x2005, 0x2006, 0x2007,
   0x2008, 0x2009, 0x200A, 0x2028, 0x2029, 0x202F, 0x205F, 0x3000, 0xFEFF]

/-- Spec-side description of the amended final pass: scanning left to right,
each comma followed by one whitespace character (per the explicit whitespace
code list) becomes a single dash. -/
def specSubstCommaWs : Str → Str
  | [] => []
  | [c] => [c]
  | c1 :: c2 :: rest =>
    if c1 == ',' && decide (c2.toNat ∈ specWsCodes) then
      '-' :: specSubstCommaWs rest
    else
      c1 :: specSubstCommaWs (c2 :: rest)

/-- The code points removed everywhere by the normalizer: non-breaking
space, zero-width space, zero-width joiner, word joiner. -/
def specRemovalCodes : List Nat := [0xA0, 0x200B, 0x200D, 0x2060]

/-- The ASCII whitespace code points (tab, LF, VT, FF, CR, space). -/
def asciiWsCodes : List Nat := [0x09, 0x0A, 0x0B, 0x0C, 0x0D, 0x20]

/-- Modelled from the claim as stated: remove the four listed code points,
then trim leading/trailing ASCII whitespace only. -/
def claimedAsciiClean : JSVal → Str
  | .nonString => []
  | .str s =>
    let kept := s.filter (fun c => !decide (c.toNat ∈ specRemovalCodes))
    let ws := fun c : Char => decide (c.toNat ∈ asciiWsCodes)
    ((kept.dropWhile ws).reverse.dropWhile ws).reverse

/-- Spec-side description of the amended normalizer: non-string input yields
empty; otherwise remove the four listed code points everywhere, then trim
leading/trailing whitespace per the explicit JavaScript whitespace code
list, with no other transformation. -/
def specClean : JSVal → Str
  | .nonString => []
  | .str s =>
    let kept := s.filter (fun c => !decide (c.toNat ∈ specRemovalCodes))
    let ws := fun c : Char => decide (c.toNat ∈ specWsCodes)
    ((kept.dropWhile ws).reverse.dropWhile ws).reverse

/-- Whether a list contains a comma immediately followed by U+0020. -/
def containsCommaSpace : Str → Bool
  | [] => false
  | [_] => false
  | c1 :: c2 :: rest =>
    (c1 == ',' && c2 == ' ') || containsCommaSpace (c2 :: rest)

/-- Whether the first character of a list satisfies a predicate. -/
def headSat (p : Char → Bool) : Str → Bool
  | [] => false
  | c :: _ => p c

lemma headSat_dropWhile (p : Char → Bool) (l : Str) :
    headSat p (l.dropWhile p) = false := by
  induction l with
  | nil => rfl
  | cons a t ih =>
    by_cases h : p a = true
    · simpa [List.dropWhile_cons, h] using ih
    · simp only [List.dropWhile_cons, if_neg h, headSat]
      exact Bool.eq_false_iff.mpr h

lemma dropWhile_eq_self_of_headSat (p : Char → Bool) (l : Str)
    (h : headSat p l = false) : l.dropWhile p = l := by
  cases l with
  | nil => rfl
  | cons a t => simp only [List.dropWhile_cons, h, headSat] at *; simp [h]

lemma headSat_append (p : Char → Bool) (l t : Str) (h : l ≠ []) :
    headSat p (l ++ t) = headSat p l := by
  cases l with
  | nil => exact absurd rfl h
  | cons a r => rfl

lemma mem_of_mem_dropWhile (p : Char → Bool) (a : Char) :
    ∀ l : Str, a ∈ l.dropWhile p → a ∈ l := by
  intro l
  induction l with
  | nil => intro h; exact h
  | cons b t ih =>
    intro h
    by_cases hb : p b = true
    · simp only [List.dropWhile_cons, if_pos hb] at h
      exact List.mem_cons_of_mem b (ih h)
    · simpa [List.dropWhile_cons, hb] using h

lemma jsTrim_reverse_headSat (l : Str) :
    headSat isJsWhitespace (jsTrim l).reverse = false := by
  unfold jsTrim
  rw [List.reverse_reverse]
  exact headSat_dropWhile _ _

lemma jsTrim_headSat (l : Str) :
    headSat isJsWhitespace (jsTrim l) = false := by
  set m := l.dropWhile isJsWhitespace with hm
  have hmhead : headSat isJsWhitespace m = false := headSat_dropWhile _ _
  have hdecomp :
      m = (m.reverse.dropWhile isJsWhitespace).reverse ++
          (m.reverse.takeWhile isJsWhitespace).reverse := by
    conv_lhs => rw [← List.reverse_reverse m,
      ← List.takeWhile_append_dropWhile isJsWhitespace m.reverse]
    rw [List.reverse_append]
  show headSat isJsWhitespace (m.reverse.dropWhile isJsWhitespace).reverse = false
  cases hx : (m.reverse.dropWhile isJsWhitespace).reverse with
  | nil => rfl
  | cons a t =>
    rw [hx] at hdecomp
    rw [hdecomp] at hmhead
    simpa [headSat] using hmhead

lemma mem_of_mem_jsTrim (a : Char) (l : Str) (h : a ∈ jsTrim l) : a ∈ l := by
  unfold jsTrim at h
  rw [List.mem_reverse] at h
  have h2 := mem_of_mem_dropWhile _ _ _ h
  rw [List.mem_reverse] at h2
  exact mem_of_mem_dropWhile _ _ _ h2

lemma jsTrim_idem (l : Str) : jsTrim (jsTrim l) = jsTrim l := by
  have h1 : (jsTrim l).dropWhile isJsWhitespace = jsTrim l :=
    dropWhile_eq_self_of_headSat _ _ (jsTrim_headSat l)
  have h2 : (jsTrim l).reverse.dropWhile isJsWhitespace = (jsTrim l).reverse :=
    dropWhile_eq_self_of_headSat _ _ (jsTrim_reverse_headSat l)
  show ((((jsTrim l).dropWhile isJsWhitespace).reverse).dropWhile isJsWhitespace).reverse = jsTrim l
  rw [h1, h2, List.reverse_reverse]

lemma cleanStr_headSat (s : Str) : headSat isJsWhitespace (cleanStr s) = false :=
  jsTrim_headSat _

lemma cleanStr_reverse_headSat (s : Str) :
    headSat isJsWhitespace (cleanStr s).reverse = false :=
  jsTrim_reverse_headSat _

lemma mem_cleanStr (a : Char) (s : Str) (h : a ∈ cleanStr s) :
    a ∈ s ∧ isCleanTarget a = false := by
  unfold cleanStr at h
  have h2 := mem_of_mem_jsTrim _ _ h
  rw [List.mem_filter] at h2
  exact ⟨h2.1, by simpa using h2.2⟩

lemma jsTrim_cleanStr (s : Str) : jsTrim (cleanStr s) = cleanStr s :=
  jsTrim_idem _

lemma filter_cleanStr (s : Str) :
    (cleanStr s).filter (fun c => !isCleanTarget c) = cleanStr s :=
  List.filter_eq_self.mpr (fun a ha => by simp [(mem_cleanStr a s ha).2])

lemma cleanStr_idem (s : Str) : cleanStr (cleanStr s) = cleanStr s := by
  show jsTrim ((cleanStr s).filter (fun c => !isCleanTarget c)) = cleanStr s
  rw [filter_cleanStr, jsTrim_cleanStr]

lemma dropWhile_filter_comm (p q : Char → Bool)
    (hpq : ∀ c, p c = false → q c = true) :
    ∀ l : Str, (l.filter p).dropWhile q = (l.dropWhile q).filter p := by
  intro l
  induction l with
  | nil => rfl
  | cons a t ih =>
    by_cases hq : q a = true
    · by_cases hp : p a = true
      · simp [List.filter_cons, List.dropWhile_cons, hp, hq, ih]
      · simp [List.filter_cons, List.dropWhile_cons, hp, hq, ih]
    · have hp : p a = true := by
        by_contra hcon
        exact hq (hpq a (Bool.eq_false_iff.mpr hcon))
      simp [List.filter_cons, List.dropWhile_cons, hp, hq]

lemma filter_reverse_comm (p : Char → Bool) (l : Str) :
    l.reverse.filter p = (l.filter p).reverse := by
  induction l with
  | nil => rfl
  | cons a t ih =>
    by_cases hp : p a = true <;>
      simp [List.filter_cons, List.filter_append, hp, ih]

lemma jsTrim_filter_comm (p : Char → Bool)
    (hpq : ∀ c, p c = false → isJsWhitespace c = true) (l : Str) :
    jsTrim (l.filter p) = (jsTrim l).filter p := by
  unfold jsTrim
  rw [dropWhile_filter_comm p isJsWhitespace hpq l, ← filter_reverse_comm,
    dropWhile_filter_comm p isJsWhitespace hpq, filter_reverse_comm]

lemma dropWhile_map_comm (f : Char → Char) (q : Char → Bool)
    (hf : ∀ c, q (f c) = q c) :
    ∀ l : Str, (l.map f).dropWhile q = (l.dropWhile q).map f := by
  intro l
  induction l with
  | nil => rfl
  | cons a t ih =>
    by_cases hq : q a = true <;>
      simp [List.map_cons, List.dropWhile_cons, hf, hq, ih]

lemma map_reverse_comm (f : Char → Char) (l : Str) :
    l.reverse.map f = (l.map f).reverse := by
  induction l with
  | nil => rfl
  | cons a t ih => simp [List.map_append, ih]

lemma jsTrim_map_comm (f : Char → Char)
    (hf : ∀ c, isJsWhitespace (f c) = isJsWhitespace c) (l : Str) :
    jsTrim (l.map f) = (jsTrim l).map f := by
  unfold jsTrim
  rw [dropWhile_map_comm f isJsWhitespace hf l, ← map_reverse_comm,
    dropWhile_map_comm f isJsWhitespace hf, map_reverse_comm]

lemma spaceKeep_ws (c : Char) (h : (!(c == ' ')) = false) :
    isJsWhitespace c = true := by
  have hc : c = ' ' := by simpa using h
  subst hc
  decide

lemma removeNormalSpaces_keeps_cleanTarget_free (s : Str) :
    (removeNormalSpaces (cleanStr s)).filter (fun c => !isCleanTarget c)
      = removeNormalSpaces (cleanStr s) := by
  apply List.filter_eq_self.mpr
  intro a ha
  unfold removeNormalSpaces at ha
  rw [List.mem_filter] at ha
  simp [(mem_cleanStr a s ha.1).2]

lemma cleanStr_removeNormalSpaces (s : Str) :
    cleanStr (removeNormalSpaces (cleanStr s)) = removeNormalSpaces (cleanStr s) := by
  show jsTrim ((removeNormalSpaces (cleanStr s)).filter (fun c => !isCleanTarget c))
      = removeNormalSpaces (cleanStr s)
  rw [removeNormalSpaces_keeps_cleanTarget_free]
  unfold removeNormalSpaces
  rw [jsTrim_filter_comm _ spaceKeep_ws, jsTrim_cleanStr]

lemma cleanAdSetVideo_idem (s : Str) :
    cleanAdSetVideo (cleanAdSetVideo s) = cleanAdSetVideo s := by
  show removeNormalSpaces (cleanStr (removeNormalSpaces (cleanStr s)))
      = removeNormalSpaces (cleanStr s)
  rw [cleanStr_removeNormalSpaces]
  unfold removeNormalSpaces
  apply List.filter_eq_self.mpr
  intro a ha
  exact (List.mem_filter.mp ha).2

lemma commaSub_ws (c : Char) :
    isJsWhitespace (if c == ',' then '-' else c) = isJsWhitespace c := by
  by_cases h : (c == ',') = true
  · have hc : c = ',' := by simpa using h
    subst hc
    decide
  · simp [h]

lemma commaSub_space (c : Char) :
    (!((if c == ',' then '-' else c) == ' ')) = (!(c == ' ')) := by
  by_cases h : (c == ',') = true
  · have hc : c = ',' := by simpa using h
    subst hc
    decide
  · simp [h]

lemma commaSub_cleanTarget (c : Char) :
    isCleanTarget (if c == ',' then '-' else c) = isCleanTarget c := by
  by_cases h : (c == ',') = true
  · have hc : c = ',' := by simpa using h
    subst hc
    decide
  · simp [h]

lemma commaSub_idem (c : Char) :
    (if (if c == ',' then '-' else c) == ',' then '-' else (if c == ',' then '-' else c))
      = (if c == ',' then '-' else c) := by
  by_cases h : (c == ',') = true
  · have hc : c = ',' := by simpa using h
    subst hc
    decide
  · simp [h]

lemma staticCleaned_eq_map_filter (s : Str) :
    cleanAdSetStatic s
      = ((cleanStr s).filter (fun c => !(c == ' '))).map (fun c => if c == ',' then '-' else c) := by
  show ((cleanStr s).map (fun c => if c == ',' then '-' else c)).filter (fun c => !(c == ' '))
      = ((cleanStr s).filter (fun c => !(c == ' '))).map (fun c => if c == ',' then '-' else c)
  rw [List.filter_map]
  apply congrArg
  apply List.filter_congr
  intro a _
  exact commaSub_space a

lemma mem_cleanAdSetStatic (a : Char) (s : Str) (h : a ∈ cleanAdSetStatic s) :
    isCleanTarget a = false ∧ (!(a == ' ')) = true := by
  rw [staticCleaned_eq_map_filter] at h
  rw [List.mem_map] at h
  obtain ⟨b, hb, hba⟩ := h
  rw [List.mem_filter] at hb
  constructor
  · rw [← hba, commaSub_cleanTarget]
    exact (mem_cleanStr b s hb.1).2
  · rw [← hba, commaSub_space]
    exact hb.2

lemma cleanStr_cleanAdSetStatic (s : Str) :
    cleanStr (cleanAdSetStatic s) = cleanAdSetStatic s := by
  show jsTrim ((cleanAdSetStatic s).filter (fun c => !isCleanTarget c))
      = cleanAdSetStatic s
  have h1 : (cleanAdSetStatic s).filter (fun c => !isCleanTarget c) = cleanAdSetStatic s := by
    apply List.filter_eq_self.mpr
    intro a ha
    simp [(mem_cleanAdSetStatic a s ha).1]
  rw [h1]
  show jsTrim (((cleanStr s).map (fun c => if c == ',' then '-' else c)).filter (fun c => !(c == ' ')))
      = cleanAdSetStatic s
  rw [jsTrim_filter_comm _ spaceKeep_ws, jsTrim_map_comm _ commaSub_ws, jsTrim_cleanStr]
  rfl

lemma cleanAdSetStatic_idem (s : Str) :
    cleanAdSetStatic (cleanAdSetStatic s) = cleanAdSetStatic s := by
  show ((cleanStr (cleanAdSetStatic s)).map (fun c => if c == ',' then '-' else c)).filter
      (fun c => !(c == ' ')) = cleanAdSetStatic s
  rw [cleanStr_cleanAdSetStatic]
  conv_lhs => rw [staticCleaned_eq_map_filter]
  rw [List.map_map]
  have hmm : ((cleanStr s).filter (fun c => !(c == ' '))).map
      ((fun c => if c == ',' then '-' else c) ∘ (fun c => if c == ',' then '-' else c))
      = ((cleanStr s).filter (fun c => !(c == ' '))).map (fun c => if c == ',' then '-' else c) := by
    apply List.map_congr_left
    intro a _
    exact commaSub_idem a
  rw [hmm]
  have h2 : (((cleanStr s).filter (fun c => !(c == ' '))).map
      (fun c => if c == ',' then '-' else c)).filter (fun c => !(c == ' '))
      = ((cleanStr s).filter (fun c => !(c == ' '))).map (fun c => if c == ',' then '-' else c) := by
    apply List.filter_eq_self.mpr
    intro a ha
    rw [List.mem_map] at ha
    obtain ⟨b, hb, hba⟩ := ha
    rw [List.mem_filter] at hb
    rw [← hba, commaSub_space]
    exact hb.2
  rw [h2, ← staticCleaned_eq_map_filter]

lemma filter_map_blank (cleaner : Str → Str) :
    ∀ l : List Str, (∀ x ∈ l, cleaner x = []) →
      (l.map cleaner).filter (fun p => !p.isEmpty) = [] := by
  intro l
  induction l with
  | nil => intro _; rfl
  | cons a t ih =>
    intro h
    rw [List.map_cons, List.filter_cons]
    have ha : cleaner a = [] := h a (List.mem_cons_self a t)
    have ht := ih (fun x hx => h x (List.mem_cons_of_mem a hx))
    simp [ha, ht]

lemma tjw_all_blank (delim : Str) (cleaner : Str → Str) (l : List Str)
    (h : ∀ x ∈ l, cleaner x = []) : textJoinWith delim l cleaner = [] := by
  unfold textJoinWith
  rw [filter_map_blank cleaner l h]
  rfl

lemma tjw_blank_mid (delim : Str) (cleaner : Str → Str) (l1 l2 : List Str)
    (b : Str) (hb : cleaner b = []) :
    textJoinWith delim (l1 ++ b :: l2) cleaner = textJoinWith delim (l1 ++ l2) cleaner := by
  unfold textJoinWith
  rw [List.map_append, List.filter_append, List.map_append, List.filter_append,
    List.map_cons, List.filter_cons]
  simp [hb]

lemma tjw_single (delim : Str) (cleaner : Str → Str) (l1 l2 : List Str)
    (v : Str) (h1 : ∀ x ∈ l1, cleaner x = []) (h2 : ∀ x ∈ l2, cleaner x = []) :
    textJoinWith delim (l1 ++ v :: l2) cleaner = cleaner v := by
  unfold textJoinWith
  rw [List.map_append, List.filter_append, List.map_cons, List.filter_cons,
    filter_map_blank cleaner l1 h1, filter_map_blank cleaner l2 h2]
  by_cases hv : cleaner v = []
  · simp [hv, joinParts]
  · have hne : (cleaner v).isEmpty = false := List.isEmpty_eq_false.mpr hv
    simp [hne, joinParts]

lemma all_ws_cleanStr_nil (s : Str) (h : ∀ c ∈ s, isJsWhitespace c = true) :
    cleanStr s = [] := by
  unfold cleanStr jsTrim
  have h1 : (s.filter (fun c => !isCleanTarget c)).dropWhile isJsWhitespace = [] := by
    rw [List.dropWhile_eq_nil_iff]
    intro a ha
    exact h a (List.mem_filter.mp ha).1
  rw [h1]
  rfl

lemma containsCommaSpace_cons (c : Char) (l : Str) :
    containsCommaSpace (c :: l)
      = ((c == ',' && headSat (fun x => x == ' ') l) || containsCommaSpace l) := by
  cases l with
  | nil => simp [containsCommaSpace, headSat]
  | cons d r => rfl

lemma subst_head_not_space (c : Char) (rest : Str) (h : isJsWhitespace c = false) :
    headSat (fun x => x == ' ') (substituteCommaSpaceToDash (c :: rest)) = false := by
  have hc : (c == ' ') = false := by
    cases hEq : (c == ' ') with
    | false => rfl
    | true =>
      have : c = ' ' := by simpa using hEq
      subst this
      simp [isJsWhitespace] at h
  cases rest with
  | nil => simpa [substituteCommaSpaceToDash, headSat] using hc
  | cons d r =>
    by_cases hif : (c == ',' && isJsWhitespace d) = true
    · simp [substituteCommaSpaceToDash, hif, headSat]
    · simp only [substituteCommaSpaceToDash, if_neg hif, headSat]
      exact hc

lemma subst_no_comma_space (s : Str) :
    containsCommaSpace (substituteCommaSpaceToDash s) = false := by
  induction s using substituteCommaSpaceToDash.induct with
  | case1 => rfl
  | case2 c => rfl
  | case3 c1 c2 rest h ih =>
    simp only [substituteCommaSpaceToDash, if_pos h]
    rw [containsCommaSpace_cons]
    simp [ih]
  | case4 c1 c2 rest h ih =>
    simp only [substituteCommaSpaceToDash, if_neg h]
    rw [containsCommaSpace_cons]
    by_cases hc1 : (c1 == ',') = true
    · have hc2 : isJsWhitespace c2 = false := by
        cases hval : isJsWhitespace c2 with
        | false => rfl
        | true => exact absurd (by rw [hc1, hval]; rfl) h
      rw [subst_head_not_space c2 rest hc2]
      simp [ih]
    · simp [hc1, ih]

lemma specWs_iff (c : Char) : c.toNat ∈ specWsCodes ↔ isJsWhitespace c = true := by
  simp [specWsCodes, isJsWhitespace]
  omega

lemma specWs_eq (c : Char) :
    decide (c.toNat ∈ specWsCodes) = isJsWhitespace c := by
  by_cases h : c.toNat ∈ specWsCodes
  · rw [decide_eq_true h, (specWs_iff c).mp h]
  · rw [decide_eq_false h]
    cases hb : isJsWhitespace c with
    | false => rfl
    | true => exact absurd ((specWs_iff c).mpr hb) h

lemma specRemoval_iff (c : Char) :
    c.toNat ∈ specRemovalCodes ↔ isCleanTarget c = true := by
  simp [specRemovalCodes, isCleanTarget]
  tauto

lemma specRemoval_eq (c : Char) :
    decide (c.toNat ∈ specRemovalCodes) = isCleanTarget c := by
  by_cases h : c.toNat ∈ specRemovalCodes
  · rw [decide_eq_true h, (specRemoval_iff c).mp h]
  · rw [decide_eq_false h]
    cases hb : isCleanTarget c with
    | false => rfl
    | true => exact absurd ((specRemoval_iff c).mpr hb) h

lemma specSubst_eq (s : Str) :
    specSubstCommaWs s = substituteCommaSpaceToDash s := by
  induction s using substituteCommaSpaceToDash.induct with
  | case1 => rfl
  | case2 c => rfl
  | case3 c1 c2 rest h ih =>
    simp only [specSubstCommaWs, substituteCommaSpaceToDash, specWs_eq, if_pos h, ih]
  | case4 c1 c2 rest h ih =>
    simp only [specSubstCommaWs, substituteCommaSpaceToDash, specWs_eq, if_neg h, ih]

lemma specClean_eq (v : JSVal) : specClean v = clean v := by
  cases v with
  | nonString => rfl
  | str s =>
    have hrem : (fun c : Char => !decide (c.toNat ∈ specRemovalCodes))
        = (fun c : Char => !isCleanTarget c) := by
      funext c
      rw [specRemoval_eq]
    have hws : (fun c : Char => decide (c.toNat ∈ specWsCodes)) = isJsWhitespace := by
      funext c
      exact specWs_eq c
    show (((s.filter (fun c => !decide (c.toNat ∈ specRemovalCodes))).dropWhile
        (fun c : Char => decide (c.toNat ∈ specWsCodes))).reverse.dropWhile
        (fun c : Char => decide (c.toNat ∈ specWsCodes))).reverse = cleanStr s
    rw [hrem, hws]
    rfl

lemma cleanStr_nil : cleanStr [] = [] := rfl

lemma cleanStr_tag_append (tag x : Str)
    (htne : tag ≠ [])
    (hzw : ∀ c ∈ tag, isCleanTarget c = false)
    (hhead : headSat isJsWhitespace tag = false)
    (hne : cleanStr x ≠ []) :
    cleanStr (tag ++ cleanStr x) = tag ++ cleanStr x := by
  have hfil : (tag ++ cleanStr x).filter (fun c => !isCleanTarget c) = tag ++ cleanStr x := by
    rw [List.filter_append,
      List.filter_eq_self.mpr (fun a ha => by simp [hzw a ha]), filter_cleanStr]
  show jsTrim ((tag ++ cleanStr x).filter (fun c => !isCleanTarget c)) = tag ++ cleanStr x
  rw [hfil]
  unfold jsTrim
  have h1 : (tag ++ cleanStr x).dropWhile isJsWhitespace = tag ++ cleanStr x := by
    apply dropWhile_eq_self_of_headSat
    rw [headSat_append _ _ _ htne]
    exact hhead
  rw [h1]
  have h2 : (tag ++ cleanStr x).reverse.dropWhile isJsWhitespace
      = (tag ++ cleanStr x).reverse := by
    apply dropWhile_eq_self_of_headSat
    rw [List.reverse_append,
      headSat_append _ _ _ (by simpa [List.reverse_eq_nil_iff] using hne)]
    exact cleanStr_reverse_headSat x
  rw [h2, List.reverse_reverse]

lemma segPart_eq (tag prim sec : Str)
    (htne : tag ≠ [])
    (hzw : ∀ c ∈ tag, isCleanTarget c = false)
    (hhead : headSat isJsWhitespace tag = false) :
    textJoin ['-'] [(if cleanStr prim = [] then [] else tag ++ cleanStr prim), sec]
      = segJoin tag (cleanStr prim) (cleanStr sec) := by
  unfold textJoin
  rw [List.map_cons, List.map_cons, List.map_nil]
  by_cases ht : cleanStr prim = []
  · rw [if_pos ht, cleanStr_nil]
    by_cases hd : cleanStr sec = []
    · simp [List.filter_cons, hd, segJoin, ht, joinParts]
    · have hie : (cleanStr sec).isEmpty = false := List.isEmpty_eq_false.mpr hd
      simp [List.filter_cons, hie, segJoin, ht, joinParts]
  · rw [if_neg ht, cleanStr_tag_append tag prim htne hzw hhead ht]
    have hne2 : (tag ++ cleanStr prim) ≠ [] :=
      fun hcon => htne (List.append_eq_nil.mp hcon).1
    have hie : (tag ++ cleanStr prim).isEmpty = false := List.isEmpty_eq_false.mpr hne2
    by_cases hd : cleanStr sec = []
    · simp [List.filter_cons, hie, hd, segJoin, ht, joinParts]
    · have hie2 : (cleanStr sec).isEmpty = false := List.isEmpty_eq_false.mpr hd
      simp [List.filter_cons, hie, hie2, segJoin, ht, hd, joinParts]

lemma videoTPart_eq (data : FormData) :
    videoTPart data = segJoin "T-".data (cleanStr data.hookTheme) (cleanStr data.hookDesc) :=
  segPart_eq "T-".data data.hookTheme data.hookDesc (by decide) (by decide) (by decide)

lemma videoVPart_eq (data : FormData) :
    videoVPart data = segJoin "V-".data (cleanStr data.visualTheme) (cleanStr data.visualObject) :=
  segPart_eq "V-".data data.visualTheme data.visualObject (by decide) (by decide) (by decide)

lemma cleanAdSetStatic_nil : cleanAdSetStatic [] = [] := rfl

/-- C1 counterexample: on the record whose adTextCode is "x,TABy", the
generated video ad-level differs from the joined string with only
comma-U+0020 pairs replaced, because the code also rewrites comma-tab. -/
theorem video_adLevel_not_commaSpaceOnly_subst :
    ¬ ((generateVideoOutputs commaTabRecord).adLevel
        = substCommaSpaceOnly (videoAdLevelRaw commaTabRecord)) := by
  decide

/-- C1 (amended): for every FieldRecord, in both generators the final
ad-level string equals the joined ad-level string with every occurrence of a
comma followed by one whitespace character (any character of the JavaScript
whitespace class, not only U+0020) replaced by a dash, scanning left to
right over the fully joined string, and with no other characters altered. -/
theorem adLevel_eq_commaWhitespace_subst (data : FormData) :
    (generateVideoOutputs data).adLevel = specSubstCommaWs (videoAdLevelRaw data)
    ∧ (generateStaticOutputs data).adLevel = specSubstCommaWs (staticAdLevelRaw data) :=
  ⟨(specSubst_eq (videoAdLevelRaw data)).symm,
   (specSubst_eq (staticAdLevelRaw data)).symm⟩

/-- C2: generateVideoOutputs produces adSet by joining with delimiter
underscore, via the video ad-set normalizer, exactly the 21 fields account,
productGeo, trial, conceptId, assetId, focus, theme, shortConceptDesc, seq,
title, intro, testVariable, testDesc, the ncon token, age, ethnicity, ratio,
style, graphic, productCode, projectCode in this order (sound, variant and
adTextCode are excluded); in particular the scenario record with
account US, productGeo USA, trial T1 and all other fields empty yields
the ad-set string US_USA_T1. -/
theorem video_adSet_field_order :
    (∀ data : FormData,
      (generateVideoOutputs data).adSet
        = textJoinWith ['_'] [
            data.account, data.productGeo, data.trial, data.conceptId,
            data.assetId, data.focus, data.theme, data.shortConceptDesc,
            data.seq, data.title, data.intro, data.testVariable, data.testDesc,
            (if data.ncon then "NCON".data else []),
            data.age, data.ethnicity, data.ratio, data.style, data.graphic,
            data.productCode, data.projectCode] cleanAdSetVideo)
    ∧ (generateVideoOutputs c2Record).adSet = "US_USA_T1".data :=
  ⟨fun _ => rfl, by decide⟩

/-- C3: the video T-segment is the dash-delimited skip-blank join of the
tag-prefixed normalized hookTheme (present only when non-empty) with the
normalized hookDesc, empty when both are absent; the V-segment follows the
same pattern over visualTheme and visualObject; the A-segment is the tag
plus normalized sound when non-empty, else empty; concretely the scenario
record gives T-Fear-Urgency, ProductShot and the empty A-segment. -/
theorem video_adLevel_segments :
    (∀ data : FormData,
      videoTPart data
          = segJoin "T-".data (cleanStr data.hookTheme) (cleanStr data.hookDesc)
      ∧ videoVPart data
          = segJoin "V-".data (cleanStr data.visualTheme) (cleanStr data.visualObject)
      ∧ videoAPart data
          = (if cleanStr data.sound = [] then [] else "A-".data ++ cleanStr data.sound))
    ∧ videoTPart c3Record = "T-Fear-Urgency".data
    ∧ videoVPart c3Record = "ProductShot".data
    ∧ videoAPart c3Record = [] :=
  ⟨fun data => ⟨videoTPart_eq data, videoVPart_eq data, rfl⟩,
   by decide, by decide, by decide⟩

/-- C4 counterexample: on input consisting of an ideographic space (U+3000)
followed by the letter a, the normalizer trims the non-ASCII whitespace,
while the claimed ASCII-only trim would keep it. -/
theorem clean_not_ascii_trim :
    ¬ (clean (.str [Char.ofNat 0x3000, 'a'])
        = claimedAsciiClean (.str [Char.ofNat 0x3000, 'a'])) := by
  decide

/-- C4 (amended): the normalizer returns the empty string on non-string
input; otherwise it removes all occurrences of U+00A0, U+200B, U+200D and
U+2060, then trims leading/trailing whitespace per JavaScript trim semantics
(the ECMAScript WhiteSpace and LineTerminator sets, which include non-ASCII
whitespace such as U+3000 and U+FEFF), and applies no other transformation. -/
theorem clean_eq_specClean (v : JSVal) : clean v = specClean v :=
  (specClean_eq v).symm

/-- C5: the join utility satisfies the skip-blank law: for every delimiter
and cleaner, a list whose values all clean to empty joins to the empty
string; one value inserted anywhere into such a list yields exactly its
cleaned value with no delimiter; a value cleaning to empty contributes
nothing anywhere in the list; and whitespace-only values normalize to empty
under all three normalizers. -/
theorem textJoin_skip_blank :
    (∀ (delim : Str) (cleaner : Str → Str) (l : List Str),
      (∀ x ∈ l, cleaner x = []) → textJoinWith delim l cleaner = [])
    ∧ (∀ (delim : Str) (cleaner : Str → Str) (l1 l2 : List Str) (v : Str),
      (∀ x ∈ l1, cleaner x = []) → (∀ x ∈ l2, cleaner x = []) →
      textJoinWith delim (l1 ++ v :: l2) cleaner = cleaner v)
    ∧ (∀ (delim : Str) (cleaner : Str → Str) (l1 l2 : List Str) (b : Str),
      cleaner b = [] →
      textJoinWith delim (l1 ++ b :: l2) cleaner = textJoinWith delim (l1 ++ l2) cleaner)
    ∧ (∀ s : Str, (∀ c ∈ s, isJsWhitespace c = true) →
      cleanStr s = [] ∧ cleanAdSetVideo s = [] ∧ cleanAdSetStatic s = []) := by
  refine ⟨tjw_all_blank, tjw_single, tjw_blank_mid, fun s h => ?_⟩
  have hc := all_ws_cleanStr_nil s h
  refine ⟨hc, ?_, ?_⟩
  · show removeNormalSpaces (cleanStr s) = []
    rw [hc]
    rfl
  · show removeNormalSpaces (replaceCommasWithDash (cleanStr s)) = []
    rw [hc]
    rfl

/-- Witness for C5: concrete instances of each half of the skip-blank law,
obtained by applying the law itself. -/
theorem textJoin_skip_blank_witness :
    textJoinWith ['_'] ["  ".data, " ".data] cleanAdSetVideo = []
    ∧ textJoinWith ['_'] [" ".data, "a b".data, ([] : Str)] cleanAdSetVideo = "ab".data
    ∧ textJoinWith ['_'] ["x".data, ([] : Str), "y".data] cleanAdSetVideo
        = textJoinWith ['_'] ["x".data, "y".data] cleanAdSetVideo
    ∧ cleanStr " \t ".data = [] := by
  refine ⟨?_, ?_, ?_, ?_⟩
  · exact textJoin_skip_blank.1 ['_'] cleanAdSetVideo _ (by decide)
  · exact (textJoin_skip_blank.2.1 ['_'] cleanAdSetVideo [" ".data] [([] : Str)]
      "a b".data (by decide) (by decide)).trans (by decide)
  · exact textJoin_skip_blank.2.2.1 ['_'] cleanAdSetVideo ["x".data] ["y".data]
      ([] : Str) rfl
  · exact (textJoin_skip_blank.2.2.2 " \t ".data (by decide)).1

/-- C6: for every FieldRecord and both modes, the generated ad-level string
never contains the literal two-character sequence comma followed by
U+0020. -/
theorem adLevel_no_comma_space (data : FormData) :
    containsCommaSpace (generateVideoOutputs data).adLevel = false
    ∧ containsCommaSpace (generateStaticOutputs data).adLevel = false :=
  ⟨subst_no_comma_space (videoAdLevelRaw data),
   subst_no_comma_space (staticAdLevelRaw data)⟩

/-- C7: each normalizer is idempotent: the default normalizer, the video
ad-set variant and the static ad-set variant each return their own output
unchanged when reapplied. -/
theorem normalizers_idempotent (s : Str) :
    cleanStr (cleanStr s) = cleanStr s
    ∧ cleanAdSetVideo (cleanAdSetVideo s) = cleanAdSetVideo s
    ∧ cleanAdSetStatic (cleanAdSetStatic s) = cleanAdSetStatic s :=
  ⟨cleanStr_idem s, cleanAdSetVideo_idem s, cleanAdSetStatic_idem s⟩

/-- C8: both generators are deterministic pure functions: identical input
records produce identical output pairs, with no dependence on hidden state,
randomness or time (the embedding is a total function of the record alone). -/
theorem generators_deterministic (d1 d2 : FormData) (h : d1 = d2) :
    generateVideoOutputs d1 = generateVideoOutputs d2
    ∧ generateStaticOutputs d1 = generateStaticOutputs d2 :=
  ⟨congrArg generateVideoOutputs h, congrArg generateStaticOutputs h⟩

/-- Witness for C8: the determinism theorem applied at the empty record. -/
theorem generators_deterministic_witness :
    generateVideoOutputs emptyRecord = generateVideoOutputs emptyRecord
    ∧ generateStaticOutputs emptyRecord = generateStaticOutputs emptyRecord :=
  generators_deterministic emptyRecord emptyRecord rfl

/-- C9: the static ad-set string built from the 26-slot column list with the
structurally empty placeholder slots (columns N to Q and the empty Z slot)
is identical to the join of the same list with those empty-literal slots
deleted: the placeholders are no-ops on the output. -/
theorem static_adSet_placeholders_noop (data : FormData) :
    (generateStaticOutputs data).adSet
      = textJoinWith ['_'] [
          data.account, data.productGeo, data.trial, data.conceptId,
          data.assetId, data.focus, data.theme, data.shortConceptDesc,
          data.carouselCode, data.title, data.intro, data.testVariable,
          data.testDesc, nconToken data, data.age, data.ethnicity, data.ratio,
          data.style, data.graphic, data.productCode, data.projectCode]
        cleanAdSetStatic := by
  rfl

/-- C10: in both generators the final ad-level pass rewrites every comma
followed by one whitespace character of the JavaScript whitespace class
(tab and newline included, not only U+0020) into a single dash, deleting
that whitespace character; concretely the record whose adTextCode holds a
comma immediately followed by a tab yields the ad-level string x-y in both
modes. -/
theorem subst_comma_any_whitespace :
    (∀ (c : Char) (s : Str), isJsWhitespace c = true →
      substituteCommaSpaceToDash (',' :: c :: s) = '-' :: substituteCommaSpaceToDash s)
    ∧ isJsWhitespace '\t' = true
    ∧ isJsWhitespace '\n' = true
    ∧ (∀ data : FormData,
        (generateVideoOutputs data).adLevel
            = substituteCommaSpaceToDash (videoAdLevelRaw data)
        ∧ (generateStaticOutputs data).adLevel
            = substituteCommaSpaceToDash (staticAdLevelRaw data))
    ∧ (generateVideoOutputs commaTabRecord).adLevel = "x-y".data
    ∧ (generateStaticOutputs commaTabRecord).adLevel = "x-y".data := by
  refine ⟨fun c s hc => ?_, by decide, by decide, fun data => ⟨rfl, rfl⟩,
    by decide, by decide⟩
  simp [substituteCommaSpaceToDash, hc]

/-- Witness for C10: the rewrite rule applied at a concrete comma-tab pair. -/
theorem subst_comma_any_whitespace_witness :
    substituteCommaSpaceToDash [',', '\t'] = ['-'] :=
  subst_comma_any_whitespace.1 '\t' [] (by decide)
